import Mathlib

/-!
Verification of the access-control and synchronization core of the Flask
sync API (src/share/flask_sync_api.py), via a shallow embedding.

Strings are embedded as Lean `String`; Python string operations
(`in`, `startswith`, truthiness, `or` on strings) are modelled over the
underlying character lists. The filesystem is modelled explicitly as data
passed to each handler, and handlers additionally return the list of
filesystem operations they perform, so that claims about "no storage
access" are statable.
-/

namespace FlaskSync

/-- Python truthiness of an optional string: `None` and `""` are falsy. -/
def truthy : Option String → Bool
  | none => false
  | some s => s != ""

/-- Python `a or b` for an optional string `a` and string `b`:
returns the value of `a` when truthy, else `b`. -/
def pyOrStr (a : Option String) (b : String) : String :=
  match a with
  | none => b
  | some s => if s = "" then b else s

/-- Python `s.startswith(p)`, over character lists. -/
def pyStartswith (s p : String) : Bool :=
  p.data.isPrefixOf s.data

/-- Substring test over character lists: Python `sub in s` for strings. -/
def containsSub (sub : List Char) : List Char → Bool
  | [] => sub.isEmpty
  | c :: rest => sub.isPrefixOf (c :: rest) || containsSub sub rest

/-- Python `sub in s` on strings. -/
def pyContains (s sub : String) : Bool :=
  containsSub sub.data s.data

/-- Split a character list on the path separator `/`. -/
def splitSeg : List Char → List (List Char)
  | [] => [[]]
  | c :: rest =>
    if c = '/' then [] :: splitSeg rest
    else
      match splitSeg rest with
      | [] => [[c]]
      | s :: ss => (c :: s) :: ss

/-- A path contains a parent-directory segment: some `/`-separated
component is exactly `..`. -/
def hasParentSegment (t : String) : Bool :=
  (splitSeg t.data).contains ['.', '.']

-- Configuration constants of the source file.

def JWT_KEY : String := "MyOwnSecretKey"

def DATA_HOME : String := "./dataroot"

def TOKEN_DURATION : Nat := 300

def jwt_users : List (String × String) :=
  [("androiduser", "secret"), ("U001", "password1"), ("U002", "password2"),
   ("myuser", "mysecret"), ("sync_client", "sync_password")]

def MANAGEMENT_USERS : List String := ["androiduser", "sync_client"]

def RESTRICTED : Bool := false

/-- `os.path.join(a, b)`: `b` replaces `a` when absolute, else they are
joined with a separator. -/
def pathJoin (a b : String) : String :=
  if pyStartswith b "/" then b else a ++ "/" ++ b

/-- `get_user_folder` from the source, with the configuration globals
`MANAGEMENT_USERS` and `RESTRICTED` as parameters so the resolution rule
can be stated for both roles and both restriction modes. -/
def get_user_folder (mgmt : List String) (restricted : Bool)
    (login_user : String) (requested_folder : Option String) : Option String :=
  if login_user ∈ mgmt then
    some (pyOrStr requested_folder login_user)
  else if restricted then
    match requested_folder with
    | some rf => if rf ≠ "" ∧ rf ≠ login_user then none else some login_user
    | none => some login_user
  else
    some (pyOrStr requested_folder login_user)

/-- Modelled from the spec: the `FolderResolver.resolve` rule as the spec
words it, clause by clause, to be compared with `get_user_folder`. -/
def resolve_spec (mgmt : List String) (restricted : Bool)
    (subject : String) (requestedFolder : Option String) : Option String :=
  if subject ∈ mgmt then
    some (if truthy requestedFolder then requestedFolder.getD subject else subject)
  else if restricted then
    if truthy requestedFolder ∧ requestedFolder.getD subject ≠ subject then none
    else some subject
  else
    some (if truthy requestedFolder then requestedFolder.getD subject else subject)

/-- Normalize a segmented path: resolve `..` against the accumulated
segments and drop `.` and empty segments. -/
def normSegs (segs : List (List Char)) : List (List Char) :=
  segs.foldl
    (fun acc s =>
      if s = ['.', '.'] then acc.dropLast
      else if s = ['.'] ∨ s = [] then acc
      else acc ++ [s]) []

/-- After resolving parent-directory segments, the path still lies under
the directory named `root`. -/
def resolvesUnder (root p : String) : Bool :=
  (normSegs (splitSeg p.data)).take 1 == [root.data]

/-- `os.path.dirname`: everything before the final separator. -/
def dirname (p : String) : String :=
  ⟨(((p.data.reverse.dropWhile (fun c => c ≠ '/')).drop 1)).reverse⟩

-- Filesystem model: existing regular files by full path, with contents,
-- plus an explicit trace of the filesystem operations a handler performs.

abbrev Bytes := List Nat

abbrev Fs := List (String × Bytes)

/-- Set of existing regular files, by full path (read-only views). -/
abbrev FileSet := List String

inductive FsOp
  | makedirs (dir : String)
  | save (path : String)
  | existsCheck (path : String)
  | isfileCheck (path : String)
  | remove (path : String)
deriving DecidableEq

structure Resp where
  error : Bool
  message : String
deriving DecidableEq

/-- Overwriting write of one path in the stored tree. -/
def fsWrite (fs : Fs) (p : String) (b : Bytes) : Fs :=
  (p, b) :: fs.filter (fun kv => kv.1 != p)

-- Token model. The JWT library itself is external; its documented
-- behavior (HS256 signing, expiry check on decode) is modelled by a
-- signed pair, while the repository code on top of it is translated
-- directly.

structure JwtPayload where
  user_id : String
  user_folder : Option String
  exp : Nat
deriving DecidableEq

structure Jwt where
  payload : JwtPayload
  key : String
deriving DecidableEq

inductive DecodeOutcome
  | ok (user_id : String) (user_folder : Option String)
  | expiredSignature
  | invalidToken
  | otherError
deriving DecidableEq

/-- Modelled behavior of the external JWT library: decoding fails on a
signature mismatch, then on expiry, else yields the payload claims. -/
def jwt_decode (t : Jwt) (key : String) (now : Nat) : DecodeOutcome :=
  if t.key ≠ key then .invalidToken
  else if t.payload.exp ≤ now then .expiredSignature
  else .ok t.payload.user_id t.payload.user_folder

def jwt_encode (p : JwtPayload) (key : String) : Jwt := ⟨p, key⟩

/-- `verify_token` from the source: every decode failure branch returns
`None`; only a successful decode yields `(user_id, user_folder)`. -/
def verify_token_outcome : DecodeOutcome → Option (String × Option String)
  | .ok u f => some (u, f)
  | .expiredSignature => none
  | .invalidToken => none
  | .otherError => none

def verify_token (now : Nat) (t : Jwt) : Option (String × Option String) :=
  verify_token_outcome (jwt_decode t JWT_KEY now)

/-- The shared guard of every token-gated endpoint: a `None` from
`verify_token` is answered with the single fixed message. -/
def token_gate_message (d : DecodeOutcome) : Option String :=
  match verify_token_outcome d with
  | none => some "Invalid or expired token."
  | some _ => none

inductive AuthFailKind
  | badCredential
  | expiredToken
  | malformedToken
  | invalidSignatureToken
deriving DecidableEq

/-- The externally visible failure message for each authentication
failure sub-reason: a bad credential is answered at the token endpoint
(line 139); the three token failures are collapsed by `verify_token` and
answered by the token gate of every protected endpoint. -/
def auth_failure_message : AuthFailKind → String
  | .badCredential => "Invalid credentials."
  | .expiredToken => (token_gate_message .expiredSignature).getD ""
  | .malformedToken => (token_gate_message .invalidToken).getD ""
  | .invalidSignatureToken => (token_gate_message .invalidToken).getD ""

inductive TokenResp
  | err (message : String)
  | issued (tok : Jwt) (user_folder : Option String)
deriving DecidableEq

/-- The `token` endpoint: credential check, folder resolution, then JWT
issuance embedding `user_id`, `user_folder` and the expiry. -/
def token (now : Nat) (user_id password : String)
    (requested_folder : Option String) : TokenResp :=
  match jwt_users.lookup user_id with
  | none => .err "Invalid credentials."
  | some pw =>
    if pw ≠ password then .err "Invalid credentials."
    else
      match get_user_folder MANAGEMENT_USERS RESTRICTED user_id requested_folder with
      | none => .err "In restricted mode, users can only access their own folder."
      | some uf =>
        .issued (jwt_encode ⟨user_id, some uf, now + TOKEN_DURATION⟩ JWT_KEY) (some uf)

-- Download handlers.

inductive DlOutcome
  | invalidName
  | denied
  | notFound
  | sent (full : String)
deriving DecidableEq

/-- The allowed-check of the `download` endpoint, verbatim: a prefix
check on `downloads/` and, for `downloads/users/` paths, on the caller
folder subtree. -/
def download_allowed (user_folder : Option String) (file_path : String) : Bool :=
  pyStartswith file_path "downloads/" &&
    (!pyStartswith file_path "downloads/users/" ||
      (truthy user_folder &&
        pyStartswith file_path ("downloads/users/" ++ user_folder.getD "" ++ "/")))

/-- The `download` endpoint after token verification. -/
def download_file (fs : FileSet) (user_folder : Option String)
    (file_path : String) : DlOutcome :=
  if !download_allowed user_folder file_path then .denied
  else
    let full := pathJoin DATA_HOME file_path
    if fs.contains full then .sent full else .notFound

/-- The `download_auto` endpoint after token verification: filename
validation, then the per-folder file, then the global file. -/
def download_file_auto (fs : FileSet) (user_folder : Option String)
    (filename : String) : DlOutcome :=
  if pyContains filename ".." || pyContains filename "/" || pyContains filename "\\" then
    .invalidName
  else
    let userFile := pathJoin (pathJoin (pathJoin (pathJoin DATA_HOME "downloads") "users")
      (user_folder.getD "")) filename
    if truthy user_folder && fs.contains userFile then .sent userFile
    else
      let globalFile := pathJoin (pathJoin DATA_HOME "downloads") filename
      if fs.contains globalFile then .sent globalFile else .notFound

/-- The `upload` endpoint after token verification: no validation of the
client-supplied filenames; each non-empty filename is saved under the
upload folder. -/
def upload_files (fs : Fs) (user_id : String) (user_folder : Option String)
    (files : List (String × Bytes)) : Fs × List FsOp × Resp :=
  if files.isEmpty then (fs, [], ⟨true, "No files provided."⟩)
  else
    let upload_folder := pyOrStr user_folder user_id
    let upload_dir := pathJoin (pathJoin DATA_HOME "uploads") upload_folder
    let saved := files.filter (fun kv => kv.1 != "")
    (saved.foldl (fun a kv => fsWrite a (pathJoin upload_dir kv.1) kv.2) fs,
     FsOp.makedirs upload_dir :: saved.map (fun kv => FsOp.save (pathJoin upload_dir kv.1)),
     ⟨false, "Files uploaded successfully."⟩)

/-- The `sync_upload` endpoint after token verification: role check,
request-shape checks, path checks, then a write at the joined path. -/
def sync_upload (fs : Fs) (user_id : String) (hasFilePart : Bool) (filename : String)
    (target_path : String) (content : Bytes) : Fs × List FsOp × Resp :=
  if user_id ∉ MANAGEMENT_USERS then (fs, [], ⟨true, "Access denied."⟩)
  else if !hasFilePart then (fs, [], ⟨true, "No file provided."⟩)
  else if filename = "" then (fs, [], ⟨true, "Empty file."⟩)
  else if pyContains target_path ".." || pyStartswith target_path "/" then
    (fs, [], ⟨true, "Invalid target path."⟩)
  else if pyStartswith target_path "uploads/" || pyStartswith target_path "logs/" then
    (fs, [], ⟨true, "Cannot sync to uploads or logs directories."⟩)
  else
    let full := pathJoin DATA_HOME target_path
    (fsWrite fs full content, [FsOp.makedirs (dirname full), FsOp.save full],
     ⟨false, "File synced successfully."⟩)

/-- The `sync_delete` endpoint after token verification: role check,
path checks, required prefix, then existence checks and removal. -/
def sync_delete (fs : Fs) (user_id : String) (file_path : String) :
    Fs × List FsOp × Resp :=
  if user_id ∉ MANAGEMENT_USERS then (fs, [], ⟨true, "Access denied."⟩)
  else if pyContains file_path ".." || pyStartswith file_path "/" then
    (fs, [], ⟨true, "Invalid file path."⟩)
  else if !(pyStartswith file_path "uploads/" || pyStartswith file_path "logs/") then
    (fs, [], ⟨true, "Can only delete from uploads or logs directories."⟩)
  else
    let full := pathJoin DATA_HOME file_path
    if !(fs.map Prod.fst).contains full then
      (fs, [FsOp.existsCheck full], ⟨true, "File not found."⟩)
    else
      (fs.filter (fun kv => kv.1 != full),
       [FsOp.existsCheck full, FsOp.isfileCheck full, FsOp.remove full],
       ⟨false, "File deleted successfully."⟩)

-- Metadata walk (the `file_metadata` endpoint). The walk enumeration and
-- the per-file read are passed in explicitly: `walk` lists the relative
-- paths found under the downloads tree, and `readFile` models the
-- `os.stat` + `open` + `read` block, which either yields the file
-- attributes or raises (modelled as an error string).

structure FileAttrs where
  size : Nat
  mtime : Nat
  content : Bytes
deriving DecidableEq

structure MetaRecord where
  size : Nat
  mtime : Nat
  hash : String
deriving DecidableEq

structure LogEntry where
  user_id : String
  operation : String
  details : String
deriving DecidableEq

/-- One file record: size and mtime from `os.stat`, content digest from
the fixed hash algorithm over the full bytes. -/
def metaRecordOf (hash : Bytes → String) (a : FileAttrs) : MetaRecord :=
  ⟨a.size, a.mtime, hash a.content⟩

/-- One iteration of the walk loop: a successful read appends a metadata
entry; a failing read appends a `METADATA_ERROR` log entry and moves on. -/
def walkStep (hash : Bytes → String) (user_id : String)
    (readFile : String → Except String FileAttrs)
    (acc : List (String × MetaRecord) × List LogEntry) (p : String) :
    List (String × MetaRecord) × List LogEntry :=
  match readFile p with
  | .ok a => (acc.1 ++ [(p, metaRecordOf hash a)], acc.2)
  | .error e =>
    (acc.1, acc.2 ++ [⟨user_id, "METADATA_ERROR", "File: " ++ p ++ ", Error: " ++ e⟩])

/-- The `file_metadata` endpoint after token verification: role check,
then the tree walk, then the success envelope with the collected map. -/
def file_metadata (hash : Bytes → String) (user_id : String) (walk : List String)
    (readFile : String → Except String FileAttrs) :
    List (String × MetaRecord) × List LogEntry × Resp :=
  if user_id ∉ MANAGEMENT_USERS then ([], [], ⟨true, "Access denied."⟩)
  else
    let md := walk.foldl (walkStep hash user_id readFile) ([], [])
    (md.1,
     md.2 ++ [⟨user_id, "METADATA_REQUEST", "Files: " ++ toString md.1.length⟩],
     ⟨false, "Metadata retrieved."⟩)

/-- The per-file outcome of the walk, as an optional record. -/
def recOf (hash : Bytes → String) (readFile : String → Except String FileAttrs)
    (p : String) : Option MetaRecord :=
  match readFile p with
  | .ok a => some (metaRecordOf hash a)
  | .error _ => none

/-- The per-file error log entry of the walk, when the read fails. -/
def errEntryOf (user_id : String) (readFile : String → Except String FileAttrs)
    (p : String) : Option LogEntry :=
  match readFile p with
  | .ok _ => none
  | .error e => some ⟨user_id, "METADATA_ERROR", "File: " ++ p ++ ", Error: " ++ e⟩

-- Helper lemmas.

theorem containsSub_of_within {sub l : List Char} (h : sub <:+: l) :
    containsSub sub l = true := by
  induction l with
  | nil =>
    rcases h with ⟨s, t, hst⟩
    have hs : sub = [] := by
      cases s <;> cases sub <;> simp_all
    simp [containsSub, hs]
  | cons c rest ih =>
    rcases h with ⟨s, t, hst⟩
    cases s with
    | nil =>
      simp only [List.nil_append] at hst
      have hpre : sub <+: c :: rest := ⟨t, hst⟩
      simp [containsSub, List.isPrefixOf_iff_prefix.mpr hpre]
    | cons x xs =>
      simp only [List.cons_append, List.cons.injEq] at hst
      have : sub <:+: rest := ⟨xs, t, hst.2⟩
      simp [containsSub, ih this]

theorem splitSeg_ne_nil (l : List Char) : splitSeg l ≠ [] := by
  cases l with
  | nil => simp [splitSeg]
  | cons c rest =>
    simp only [splitSeg]
    split
    · simp
    · cases h : splitSeg rest <;> simp

theorem splitSeg_parts_within (l : List Char) :
    (∀ x ∈ splitSeg l, x <:+: l) ∧ (∀ s ss, splitSeg l = s :: ss → s <+: l) := by
  induction l with
  | nil =>
    constructor
    · intro x hx
      simp [splitSeg] at hx
      simp [hx]
    · intro s ss h
      simp [splitSeg] at h
      simp [h.1]
  | cons c rest ih =>
    by_cases hc : c = '/'
    · constructor
      · intro x hx
        simp only [splitSeg, if_pos hc, List.mem_cons] at hx
        rcases hx with hx | hx
        · simp [hx]
        · exact (ih.1 x hx).trans (List.infix_cons (List.infix_refl rest))
      · intro s ss h
        simp only [splitSeg, if_pos hc, List.cons.injEq] at h
        simp [← h.1]
    · cases hsp : splitSeg rest with
      | nil => exact absurd hsp (splitSeg_ne_nil rest)
      | cons s0 ss0 =>
        have hhead : s0 <+: rest := ih.2 s0 ss0 hsp
        have heq : splitSeg (c :: rest) = (c :: s0) :: ss0 := by
          simp only [splitSeg, if_neg hc, hsp]
        constructor
        · intro x hx
          rw [heq, List.mem_cons] at hx
          rcases hx with hx | hx
          · subst hx
            rcases hhead with ⟨t, ht⟩
            have hp : c :: s0 <+: c :: rest := ⟨t, by simp [← ht]⟩
            exact List.IsPrefix.isInfix hp
          · have : x ∈ splitSeg rest := by rw [hsp]; exact List.mem_cons_of_mem _ hx
            exact (ih.1 x this).trans (List.infix_cons (List.infix_refl rest))
        · intro s ss h
          rw [heq, List.cons.injEq] at h
          rcases hhead with ⟨t, ht⟩
          exact h.1 ▸ ⟨t, by simp [← ht]⟩

theorem pyContains_of_parentSegment {t : String} (h : hasParentSegment t = true) :
    pyContains t ".." = true := by
  have hmem : ['.', '.'] ∈ splitSeg t.data := List.elem_iff.mp h
  have hinf : ['.', '.'] <:+: t.data := (splitSeg_parts_within t.data).1 _ hmem
  exact containsSub_of_within hinf

theorem pyOrStr_ne_empty {rf : Option String} {u : String} (hu : u ≠ "") :
    pyOrStr rf u ≠ "" := by
  cases rf with
  | none => simpa [pyOrStr]
  | some s =>
    by_cases hs : s = "" <;> simp [pyOrStr, hs, hu]

theorem lookup_user_ne_empty {u pw : String} (h : jwt_users.lookup u = some pw) :
    u ≠ "" := by
  intro he
  subst he
  have hn : jwt_users.lookup "" = none := by decide
  rw [hn] at h
  cases h

theorem get_user_folder_unrestricted (mgmt : List String) (u : String)
    (rf : Option String) : get_user_folder mgmt false u rf = some (pyOrStr rf u) := by
  unfold get_user_folder
  split_ifs with h1 h2
  · rfl
  · exact absurd h2 (by simp)
  · rfl

theorem verify_encode (now : Nat) (p : JwtPayload) (h : now < p.exp) :
    verify_token now (jwt_encode p JWT_KEY) = some (p.user_id, p.user_folder) := by
  simp [verify_token, jwt_encode, jwt_decode, verify_token_outcome, Nat.not_le.mpr h]

theorem token_issued_inv {now : Nat} {u pw : String} {rf : Option String}
    {tok : Jwt} {fld : Option String} (h : token now u pw rf = .issued tok fld) :
    jwt_users.lookup u = some pw ∧
      ∃ uf, get_user_folder MANAGEMENT_USERS RESTRICTED u rf = some uf ∧
        fld = some uf ∧ tok = jwt_encode ⟨u, some uf, now + TOKEN_DURATION⟩ JWT_KEY := by
  unfold token at h
  split at h
  · cases h
  · rename_i pw0 hl
    by_cases hpw : pw0 ≠ pw
    · rw [if_pos hpw] at h
      cases h
    · rw [if_neg hpw] at h
      push_neg at hpw
      subst hpw
      split at h
      · cases h
      · rename_i uf hg
        cases h
        exact ⟨hl, uf, hg, rfl, rfl⟩

theorem walk_foldl_fst (hash : Bytes → String) (u : String)
    (readFile : String → Except String FileAttrs) (walk : List String) :
    ∀ acc : List (String × MetaRecord) × List LogEntry,
      (walk.foldl (walkStep hash u readFile) acc).1
        = acc.1 ++ walk.filterMap (fun p => (recOf hash readFile p).map (fun r => (p, r))) := by
  induction walk with
  | nil => intro acc; simp
  | cons p rest ih =>
    intro acc
    cases h : readFile p with
    | ok a => simp [walkStep, h, ih, recOf]
    | error e => simp [walkStep, h, ih, recOf]

theorem walk_foldl_snd (hash : Bytes → String) (u : String)
    (readFile : String → Except String FileAttrs) (walk : List String) :
    ∀ acc : List (String × MetaRecord) × List LogEntry,
      (walk.foldl (walkStep hash u readFile) acc).2
        = acc.2 ++ walk.filterMap (errEntryOf u readFile) := by
  induction walk with
  | nil => intro acc; simp
  | cons p rest ih =>
    intro acc
    cases h : readFile p with
    | ok a => simp [walkStep, h, ih, errEntryOf]
    | error e => simp [walkStep, h, ih, errEntryOf]

theorem lookup_filterMap_rec (f : String → Option MetaRecord) (q : String)
    (walk : List String) (hnd : walk.Nodup) :
    (walk.filterMap (fun p => (f p).map (fun r => (p, r)))).lookup q
      = if q ∈ walk then f q else none := by
  induction walk with
  | nil => simp
  | cons p rest ih =>
    have hnd' : rest.Nodup := (List.nodup_cons.mp hnd).2
    have hpnot : p ∉ rest := (List.nodup_cons.mp hnd).1
    cases hf : f p with
    | some r =>
      by_cases hq : q = p
      · subst hq
        simp [List.filterMap_cons, hf, List.lookup]
      · have hb : (q == p) = false := beq_eq_false_iff_ne.mpr hq
        simp [List.filterMap_cons, hf, List.lookup, hb, ih hnd', hq]
    | none =>
      by_cases hq : q = p
      · subst hq
        simp [List.filterMap_cons, hf, ih hnd', hpnot]
      · simp [List.filterMap_cons, hf, ih hnd', hq]

theorem lookup_filterMap_none (f : String → Option MetaRecord) (q : String)
    (hq : f q = none) (walk : List String) :
    (walk.filterMap (fun p => (f p).map (fun r => (p, r)))).lookup q = none := by
  induction walk with
  | nil => simp
  | cons p rest ih =>
    cases hf : f p with
    | some r =>
      have hqp : q ≠ p := by
        intro he
        subst he
        rw [hq] at hf
        cases hf
      have hb : (q == p) = false := beq_eq_false_iff_ne.mpr hqp
      simp [List.filterMap_cons, hf, List.lookup, hb, ih]
    | none => simp [List.filterMap_cons, hf, ih]

-- Claim theorems.

/-- C2: folder resolution (`get_user_folder`) is a pure total function of
(subject, role, requested folder, restricted flag) and agrees on every
input with the resolution rule exactly as the spec words it
(`resolve_spec`): a Management subject gets the requested folder when
non-empty, else its subject id, and is never denied; a restricted Regular
subject is denied exactly when the requested folder is non-empty and
differs from its id, else gets its id; an unrestricted Regular subject
gets the requested folder when non-empty, else its id. -/
theorem folder_resolution_matches_spec (mgmt : List String) (restricted : Bool)
    (u : String) (rf : Option String) :
    get_user_folder mgmt restricted u rf = resolve_spec mgmt restricted u rf := by
  unfold get_user_folder resolve_spec
  cases rf with
  | none => split_ifs <;> simp_all [truthy, pyOrStr]
  | some s =>
    by_cases hs : s = "" <;> split_ifs <;> simp_all [truthy, pyOrStr]

/-- C3 counterexample: a request failing for a bad credential and a
request failing for an expired token do not produce the same externally
visible message, so the four AuthError sub-reasons are not all collapsed
into one outcome. -/
theorem auth_failure_message_differs :
    auth_failure_message .badCredential ≠ auth_failure_message .expiredToken := by
  decide

/-- C3 amended: the three token-verification failure sub-reasons
(expired, malformed, invalid signature) all surface as the identical
"Invalid or expired token." message, never exposing which sub-case
occurred; only the bad-credential failure at the token endpoint is
surfaced with the distinct "Invalid credentials." message. -/
theorem token_auth_failures_indistinguishable (k1 k2 : AuthFailKind)
    (h1 : k1 ≠ .badCredential) (h2 : k2 ≠ .badCredential) :
    auth_failure_message k1 = auth_failure_message k2 ∧
      auth_failure_message k1 = "Invalid or expired token." := by
  cases k1 <;> cases k2 <;>
    simp_all [auth_failure_message, token_gate_message, verify_token_outcome]

/-- C3 amended, witness: expired and malformed tokens produce the same
message. -/
theorem token_auth_failures_indistinguishable_witness :
    auth_failure_message .expiredToken = auth_failure_message .malformedToken ∧
      auth_failure_message .expiredToken = "Invalid or expired token." :=
  token_auth_failures_indistinguishable .expiredToken .malformedToken
    (by decide) (by decide)

/-- The first conjunct of the allowed-check of the download endpoint. -/
theorem download_allowed_elim {uf : Option String} {p : String}
    (h : download_allowed uf p = true) : pyStartswith p "downloads/" = true := by
  unfold download_allowed at h
  simp only [Bool.and_eq_true] at h
  exact h.1

/-- The allowed-check denies a users-subtree path outside the caller
folder. -/
theorem download_allowed_users_false {F p : String}
    (h1 : pyStartswith p "downloads/users/" = true)
    (h2 : pyStartswith p ("downloads/users/" ++ F ++ "/") = false) :
    download_allowed (some F) p = false := by
  unfold download_allowed
  simp [h1, h2]

/-- The allowed-check passes when the prefix conditions hold. -/
theorem download_allowed_intro {F p : String} (hF : F ≠ "")
    (h1 : pyStartswith p "downloads/" = true)
    (h2 : pyStartswith p "downloads/users/" = true →
      pyStartswith p ("downloads/users/" ++ F ++ "/") = true) :
    download_allowed (some F) p = true := by
  unfold download_allowed
  rw [h1]
  cases hu : pyStartswith p "downloads/users/" with
  | false => simp
  | true => simp [truthy, hF, h2 hu]

/-- C4: for a caller with resolved folder `F`, the download endpoint
sends a file only when the path starts with `downloads/`; a path in the
`downloads/users/` subtree but outside `downloads/users/F/` is denied;
and a path passing these checks that names no existing file yields
not-found rather than denied. -/
theorem download_exact_policy (fs : FileSet) (F file_path : String) (hF : F ≠ "") :
    (∀ full, download_file fs (some F) file_path = .sent full →
      pyStartswith file_path "downloads/" = true) ∧
    (pyStartswith file_path "downloads/users/" = true →
      pyStartswith file_path ("downloads/users/" ++ F ++ "/") = false →
      download_file fs (some F) file_path = .denied) ∧
    (pyStartswith file_path "downloads/" = true →
      (pyStartswith file_path "downloads/users/" = true →
        pyStartswith file_path ("downloads/users/" ++ F ++ "/") = true) →
      fs.contains (pathJoin DATA_HOME file_path) = false →
      download_file fs (some F) file_path = .notFound) := by
  refine ⟨?_, ?_, ?_⟩
  · intro full hsent
    cases ha : download_allowed (some F) file_path with
    | false =>
      unfold download_file at hsent
      rw [ha] at hsent
      simp at hsent
    | true => exact download_allowed_elim ha
  · intro h1 h2
    unfold download_file
    rw [download_allowed_users_false h1 h2]
    simp
  · intro h1 h2 hc
    unfold download_file
    rw [download_allowed_intro hF h1 h2]
    simp at hc
    simp [hc]

/-- C4 witness: a users-subtree path of another folder is denied. -/
theorem download_exact_policy_witness :
    download_file [pathJoin DATA_HOME "downloads/users/U001/f.txt"] (some "U001")
      "downloads/users/U002/f.txt" = .denied :=
  (download_exact_policy [pathJoin DATA_HOME "downloads/users/U001/f.txt"] "U001"
    "downloads/users/U002/f.txt" (by decide)).2.1 (by decide) (by decide)

/-- C1: evaluation of the code at a failing input. The path
`downloads/../../etc/passwd` contains a parent-directory segment, yet the
download endpoint's allowed-check accepts it (it checks prefixes only,
never `..`), the handler proceeds to storage access at the joined path
and serves the file, and that path resolves outside the `dataroot` data
root. Likewise the upload endpoint saves a client filename containing
parent-directory segments at a path resolving outside the data root. -/
theorem parent_segment_reaches_storage :
    hasParentSegment "downloads/../../etc/passwd" = true ∧
    download_allowed (some "U001") "downloads/../../etc/passwd" = true ∧
    download_file [pathJoin DATA_HOME "downloads/../../etc/passwd"] (some "U001")
        "downloads/../../etc/passwd"
      = .sent (pathJoin DATA_HOME "downloads/../../etc/passwd") ∧
    resolvesUnder "dataroot" (pathJoin DATA_HOME "downloads/../../etc/passwd") = false ∧
    (upload_files [] "U001" (some "U001") [("../../../evil", [0])]).2.1
      = [FsOp.makedirs (pathJoin (pathJoin DATA_HOME "uploads") "U001"),
         FsOp.save (pathJoin (pathJoin (pathJoin DATA_HOME "uploads") "U001") "../../../evil")] ∧
    resolvesUnder "dataroot"
        (pathJoin (pathJoin (pathJoin DATA_HOME "uploads") "U001") "../../../evil") = false := by
  decide

/-- C5: for a Management caller, `sync_upload` rejects any target path
containing a parent-directory segment, absolute, or starting with
`uploads/` or `logs/`; `sync_delete` rejects any path containing a
parent-directory segment, absolute, or not starting with `uploads/` or
`logs/`; in every rejected case the handler performs no filesystem
operation and the stored tree is unchanged. -/
theorem sync_path_rejection (fs : Fs) (u : String) (hasFilePart : Bool)
    (filename t : String) (content : Bytes) (hu : u ∈ MANAGEMENT_USERS) :
    ((hasParentSegment t = true ∨ pyStartswith t "/" = true ∨
        pyStartswith t "uploads/" = true ∨ pyStartswith t "logs/" = true) →
      (sync_upload fs u hasFilePart filename t content).1 = fs ∧
      (sync_upload fs u hasFilePart filename t content).2.1 = [] ∧
      (sync_upload fs u hasFilePart filename t content).2.2.error = true) ∧
    ((hasParentSegment t = true ∨ pyStartswith t "/" = true ∨
        (pyStartswith t "uploads/" = false ∧ pyStartswith t "logs/" = false)) →
      (sync_delete fs u t).1 = fs ∧
      (sync_delete fs u t).2.1 = [] ∧
      (sync_delete fs u t).2.2.error = true) := by
  have hm : ¬(u ∉ MANAGEMENT_USERS) := not_not_intro hu
  constructor
  · intro h
    have hc4 : (pyContains t ".." || pyStartswith t "/") = true ∨
        (pyStartswith t "uploads/" || pyStartswith t "logs/") = true := by
      rcases h with hp | hp | hp | hp
      · exact Or.inl (by simp [pyContains_of_parentSegment hp])
      · exact Or.inl (by simp [hp])
      · exact Or.inr (by simp [hp])
      · exact Or.inr (by simp [hp])
    unfold sync_upload
    rw [if_neg hm]
    by_cases hf : (!hasFilePart) = true
    · rw [if_pos hf]
      exact ⟨rfl, rfl, rfl⟩
    · rw [if_neg hf]
      by_cases hfn : filename = ""
      · rw [if_pos hfn]
        exact ⟨rfl, rfl, rfl⟩
      · rw [if_neg hfn]
        rcases hc4 with hA | hB
        · rw [if_pos hA]
          exact ⟨rfl, rfl, rfl⟩
        · by_cases hA2 : (pyContains t ".." || pyStartswith t "/") = true
          · rw [if_pos hA2]
            exact ⟨rfl, rfl, rfl⟩
          · rw [if_neg hA2, if_pos hB]
            exact ⟨rfl, rfl, rfl⟩
  · intro h
    have hc3 : (pyContains t ".." || pyStartswith t "/") = true ∨
        (!(pyStartswith t "uploads/" || pyStartswith t "logs/")) = true := by
      rcases h with hp | hp | hp
      · exact Or.inl (by simp [pyContains_of_parentSegment hp])
      · exact Or.inl (by simp [hp])
      · exact Or.inr (by simp [hp.1, hp.2])
    unfold sync_delete
    rw [if_neg hm]
    rcases hc3 with hA | hB
    · rw [if_pos hA]
      exact ⟨rfl, rfl, rfl⟩
    · by_cases hA2 : (pyContains t ".." || pyStartswith t "/") = true
      · rw [if_pos hA2]
        exact ⟨rfl, rfl, rfl⟩
      · rw [if_neg hA2, if_pos hB]
        exact ⟨rfl, rfl, rfl⟩

/-- C5 witness: a Management sync-place with a traversal target is
rejected with no filesystem operation. -/
theorem sync_path_rejection_witness :
    (sync_upload [] "sync_client" true "f" "downloads/../escape" [1]).1 = [] ∧
    (sync_upload [] "sync_client" true "f" "downloads/../escape" [1]).2.1 = [] ∧
    (sync_upload [] "sync_client" true "f" "downloads/../escape" [1]).2.2.error = true :=
  (sync_path_rejection [] "sync_client" true "f" "downloads/../escape" [1]
    (by decide)).1 (Or.inl (by decide))

/-- C6: for a caller with resolved folder `F` and a valid bare filename,
the fallback download sends the per-folder file when it exists, else the
global file when it exists, else not-found. -/
theorem download_fallback_policy (fs : FileSet) (F n : String) (hF : F ≠ "")
    (h1 : pyContains n ".." = false) (h2 : pyContains n "/" = false)
    (h3 : pyContains n "\\" = false) :
    (fs.contains (pathJoin (pathJoin (pathJoin (pathJoin DATA_HOME "downloads") "users") F) n)
        = true →
      download_file_auto fs (some F) n
        = .sent (pathJoin (pathJoin (pathJoin (pathJoin DATA_HOME "downloads") "users") F) n)) ∧
    (fs.contains (pathJoin (pathJoin (pathJoin (pathJoin DATA_HOME "downloads") "users") F) n)
        = false →
      fs.contains (pathJoin (pathJoin DATA_HOME "downloads") n) = true →
      download_file_auto fs (some F) n = .sent (pathJoin (pathJoin DATA_HOME "downloads") n)) ∧
    (fs.contains (pathJoin (pathJoin (pathJoin (pathJoin DATA_HOME "downloads") "users") F) n)
        = false →
      fs.contains (pathJoin (pathJoin DATA_HOME "downloads") n) = false →
      download_file_auto fs (some F) n = .notFound) := by
  have ht : truthy (some F) = true := by simp [truthy, hF]
  refine ⟨?_, ?_, ?_⟩
  · intro hc
    simp at hc
    simp [download_file_auto, h1, h2, h3, ht, hc]
  · intro hc hg
    simp at hc hg
    simp [download_file_auto, h1, h2, h3, ht, hc, hg]
  · intro hc hg
    simp at hc hg
    simp [download_file_auto, h1, h2, h3, ht, hc, hg]

/-- C6 witness: the per-folder file is preferred when present. -/
theorem download_fallback_policy_witness :
    download_file_auto
        [pathJoin (pathJoin (pathJoin (pathJoin DATA_HOME "downloads") "users") "U001") "a.txt"]
        (some "U001") "a.txt"
      = .sent (pathJoin (pathJoin (pathJoin (pathJoin DATA_HOME "downloads") "users") "U001")
          "a.txt") :=
  (download_fallback_policy
    [pathJoin (pathJoin (pathJoin (pathJoin DATA_HOME "downloads") "users") "U001") "a.txt"]
    "U001" "a.txt" (by decide) (by decide) (by decide) (by decide)).1 (by decide)

/-- C7: a token successfully issued for a valid (subject, secret) pair,
verified immediately (before expiry), yields exactly the subject id and
the assigned folder that issuance embedded. -/
theorem issue_verify_roundtrip (now : Nat) (u pw : String) (rf : Option String)
    (tok : Jwt) (fld : Option String) (h : token now u pw rf = .issued tok fld) :
    verify_token now tok = some (u, fld) := by
  obtain ⟨-, uf, -, hfld, htok⟩ := token_issued_inv h
  subst hfld htok
  have hlt : now < now + TOKEN_DURATION := by
    simp [TOKEN_DURATION]
  simpa using verify_encode now ⟨u, some uf, now + TOKEN_DURATION⟩ hlt

/-- C7 witness: issuing for U001 with no requested folder and verifying
at once returns U001 and folder U001. -/
theorem issue_verify_roundtrip_witness :
    verify_token 0 (jwt_encode ⟨"U001", some "U001", 0 + TOKEN_DURATION⟩ JWT_KEY)
      = some ("U001", some "U001") :=
  issue_verify_roundtrip 0 "U001" "password1" none
    (jwt_encode ⟨"U001", some "U001", 0 + TOKEN_DURATION⟩ JWT_KEY) (some "U001") (by decide)

/-- C8: the metadata computation is deterministic and idempotent: two
runs over walks enumerating the same files (in any order, without
duplicates) whose per-file attributes (bytes, size, mtime) are unchanged
produce, for every file, identical records — in particular identical
digests (the one fixed hash function applied to the bytes) and identical
sizes. -/
theorem metadata_idempotent (hash : Bytes → String) (u : String)
    (walk1 walk2 : List String) (read1 read2 : String → Except String FileAttrs)
    (hperm : walk2.Perm walk1) (hnd : walk1.Nodup)
    (hagree : ∀ p ∈ walk1, read1 p = read2 p) (q : String) :
    (file_metadata hash u walk1 read1).1.lookup q
      = (file_metadata hash u walk2 read2).1.lookup q := by
  by_cases hu : u ∈ MANAGEMENT_USERS
  · have hnd2 : walk2.Nodup := hperm.nodup_iff.mpr hnd
    unfold file_metadata
    rw [if_neg (not_not_intro hu), if_neg (not_not_intro hu)]
    dsimp only
    rw [walk_foldl_fst, walk_foldl_fst]
    simp only [List.nil_append]
    rw [lookup_filterMap_rec (recOf hash read1) q walk1 hnd,
      lookup_filterMap_rec (recOf hash read2) q walk2 hnd2]
    by_cases hq : q ∈ walk1
    · rw [if_pos hq, if_pos (hperm.mem_iff.mpr hq)]
      unfold recOf
      rw [hagree q hq]
    · rw [if_neg hq, if_neg (fun hx => hq (hperm.mem_iff.mp hx))]
  · unfold file_metadata
    rw [if_pos hu, if_pos hu]

/-- C8 witness: two walks of the same two files in opposite orders, with
reads that agree on those files, yield the same record for file a. -/
theorem metadata_idempotent_witness :
    (file_metadata (fun b => toString b.length) "sync_client" ["a", "b"]
        (fun p => if p = "c" then .error "gone" else .ok ⟨1, 2, [7]⟩)).1.lookup "a"
      = (file_metadata (fun b => toString b.length) "sync_client" ["b", "a"]
        (fun _ => .ok ⟨1, 2, [7]⟩)).1.lookup "a" :=
  metadata_idempotent (fun b => toString b.length) "sync_client" ["a", "b"] ["b", "a"]
    (fun p => if p = "c" then .error "gone" else .ok ⟨1, 2, [7]⟩) (fun _ => .ok ⟨1, 2, [7]⟩)
    (List.Perm.swap "a" "b" []) (by decide)
    (by
      intro p hp
      rcases List.mem_cons.mp hp with rfl | hp2
      · rfl
      · rcases List.mem_cons.mp hp2 with rfl | hp3
        · rfl
        · cases hp3)
    "a"

/-- C9: when the per-file read fails for one file during the walk, that
file is recorded as a skipped entry — a `METADATA_ERROR` log entry
carrying the error detail, and no entry under its path in the metadata
map — while the walk continues over the remaining files (the map is
exactly the per-file successes over the whole walk) and the operation
still reports overall success with the partial map. -/
theorem metadata_partial_failure (hash : Bytes → String) (u : String)
    (walk : List String) (readFile : String → Except String FileAttrs)
    (p e : String) (hu : u ∈ MANAGEMENT_USERS) (hp : p ∈ walk)
    (he : readFile p = .error e) :
    (file_metadata hash u walk readFile).2.2 = ⟨false, "Metadata retrieved."⟩ ∧
    (⟨u, "METADATA_ERROR", "File: " ++ p ++ ", Error: " ++ e⟩ : LogEntry)
      ∈ (file_metadata hash u walk readFile).2.1 ∧
    (file_metadata hash u walk readFile).1
      = walk.filterMap (fun q => (recOf hash readFile q).map (fun r => (q, r))) ∧
    (file_metadata hash u walk readFile).1.lookup p = none := by
  unfold file_metadata
  rw [if_neg (not_not_intro hu)]
  dsimp only
  refine ⟨rfl, ?_, ?_, ?_⟩
  · rw [walk_foldl_snd]
    simp only [List.nil_append]
    apply List.mem_append_left
    exact List.mem_filterMap.mpr ⟨p, hp, by simp [errEntryOf, he]⟩
  · rw [walk_foldl_fst]
    simp only [List.nil_append]
  · rw [walk_foldl_fst]
    simp only [List.nil_append]
    exact lookup_filterMap_none _ p (by simp [recOf, he]) walk

/-- C9 witness: a walk of a good file and a failing file logs the error
for the failing one, keeps the good one, and reports success. -/
theorem metadata_partial_failure_witness :
    (file_metadata (fun b => toString b.length) "sync_client" ["good", "bad"]
        (fun q => if q = "bad" then .error "disk" else .ok ⟨1, 2, [7]⟩)).2.2
      = ⟨false, "Metadata retrieved."⟩ ∧
    (⟨"sync_client", "METADATA_ERROR", "File: " ++ "bad" ++ ", Error: " ++ "disk"⟩ : LogEntry)
      ∈ (file_metadata (fun b => toString b.length) "sync_client" ["good", "bad"]
          (fun q => if q = "bad" then .error "disk" else .ok ⟨1, 2, [7]⟩)).2.1 ∧
    (file_metadata (fun b => toString b.length) "sync_client" ["good", "bad"]
        (fun q => if q = "bad" then .error "disk" else .ok ⟨1, 2, [7]⟩)).1
      = ["good", "bad"].filterMap (fun q =>
          (recOf (fun b => toString b.length)
            (fun q => if q = "bad" then .error "disk" else .ok ⟨1, 2, [7]⟩) q).map
            (fun r => (q, r))) ∧
    (file_metadata (fun b => toString b.length) "sync_client" ["good", "bad"]
        (fun q => if q = "bad" then .error "disk" else .ok ⟨1, 2, [7]⟩)).1.lookup "bad"
      = none :=
  metadata_partial_failure (fun b => toString b.length) "sync_client" ["good", "bad"]
    (fun q => if q = "bad" then .error "disk" else .ok ⟨1, 2, [7]⟩) "bad" "disk"
    (by decide) (by decide) (by rfl)

/-- C10: every successfully issued token embeds a non-empty assigned
folder, equal to the requested folder when one is requested (and then
necessarily allowed) and to the subject id otherwise; verifying such a
token never yields an empty folder, and the upload handler's fallback
`user_folder or user_id` always selects the token folder, never the
subject-id fallback. -/
theorem issued_folder_nonempty (now : Nat) (u pw : String) (rf : Option String)
    (tok : Jwt) (fld : Option String) (h : token now u pw rf = .issued tok fld) :
    ∃ f, fld = some f ∧ f ≠ "" ∧ f = pyOrStr rf u ∧
      tok.payload.user_folder = some f ∧
      verify_token now tok = some (u, some f) ∧
      pyOrStr (some f) u = f := by
  obtain ⟨hl, uf, hg, hfld, htok⟩ := token_issued_inv h
  have hu0 : u ≠ "" := lookup_user_ne_empty hl
  rw [show RESTRICTED = false from rfl, get_user_folder_unrestricted] at hg
  have huf : uf = pyOrStr rf u := by
    injection hg with hg2
    exact hg2.symm
  subst huf
  have hne : pyOrStr rf u ≠ "" := pyOrStr_ne_empty hu0
  subst hfld htok
  refine ⟨pyOrStr rf u, rfl, hne, rfl, rfl, ?_, ?_⟩
  · have hlt : now < now + TOKEN_DURATION := by
      simp [TOKEN_DURATION]
    simpa using verify_encode now ⟨u, some (pyOrStr rf u), now + TOKEN_DURATION⟩ hlt
  · show (if pyOrStr rf u = "" then u else pyOrStr rf u) = pyOrStr rf u
    rw [if_neg hne]

/-- C10 witness: issuing for U001 with requested folder team embeds the
non-empty folder team, verification returns it, and the upload fallback
selects it. -/
theorem issued_folder_nonempty_witness :
    ∃ f, (some "team" : Option String) = some f ∧ f ≠ "" ∧
      f = pyOrStr (some "team") "U001" ∧
      (jwt_encode ⟨"U001", some "team", 0 + TOKEN_DURATION⟩ JWT_KEY).payload.user_folder
        = some f ∧
      verify_token 0 (jwt_encode ⟨"U001", some "team", 0 + TOKEN_DURATION⟩ JWT_KEY)
        = some ("U001", some f) ∧
      pyOrStr (some f) "U001" = f :=
  issued_folder_nonempty 0 "U001" "password1" (some "team")
    (jwt_encode ⟨"U001", some "team", 0 + TOKEN_DURATION⟩ JWT_KEY) (some "team") (by decide)

end FlaskSync
